import Mathlib

/-!
A shallow embedding of the ATTiny85 CW keyer source (yack.c): the Morse
codebook shared by the encode and decode paths, the character transmitter
with its cancellation checks, the speed and Farnsworth model, the message
recorder, and the per-tick iambic finite state machine. Theorems at the end
check the natural-language specification of the keyer against this code.

Characters are embedded as their ASCII codes (Nat), bytes as Nat values
below 256 with explicit reductions modulo 256 where the C byte arithmetic
overflows.
-/

namespace Yack

set_option maxRecDepth 400000

/-- Modelled from the spec: element length ratios in dot units (yack.h is not
part of src). Dit = 1 unit. -/
def DITLEN : Nat := 1

/-- Modelled from the spec: Dah = 3 dot units. -/
def DAHLEN : Nat := 3

/-- Modelled from the spec: inter element gap = 1 dot unit. -/
def IEGLEN : Nat := 1

/-- Modelled from the spec: inter character gap = 3 dot units. -/
def ICGLEN : Nat := 3

/-- Modelled from the spec: inter word gap = 7 dot units. -/
def IWGLEN : Nat := 7

/-- Modelled from the spec: the heartbeat period in milliseconds. yack.h is
not part of src; the value 5 is fixed by the timer configuration in yackinit
(1 MHz prescaled by 64 gives 15625 Hz, counting 78 cycles gives an overflow
every 5 ms, as the source comment states). -/
def YACKBEAT : Nat := 5

/-- Modelled from the spec: lower WPM bound (yack.h is not part of src; 5 is
the upstream default). -/
def MINWPM : Nat := 5

/-- Modelled from the spec: upper WPM bound (yack.h is not part of src; 50 is
the upstream default). -/
def MAXWPM : Nat := 50

/-- Modelled from the spec: default speed. The src EEPROM comment states
15 WPM. -/
def DEFWPM : Nat := 15

/-- Morse code table from yack.c (array morse, 60 entries, digits then
letters then special characters). Each byte is read from the left: 0 stands
for a dot, 1 for a dash; after the last element a single 1 followed only by
zeros marks the end of the character. -/
def morse : List Nat := [
  0b11111100, -- 0
  0b01111100, -- 1
  0b00111100, -- 2
  0b00011100, -- 3
  0b00001100, -- 4
  0b00000100, -- 5
  0b10000100, -- 6
  0b11000100, -- 7
  0b11100100, -- 8
  0b11110100, -- 9
  0b01100000, -- A
  0b10001000, -- B
  0b10101000, -- C
  0b10010000, -- D
  0b01000000, -- E
  0b00101000, -- F
  0b11010000, -- G
  0b00001000, -- H
  0b00100000, -- I
  0b01111000, -- J
  0b10110000, -- K
  0b01001000, -- L
  0b11100000, -- M
  0b10100000, -- N
  0b11110000, -- O
  0b01101000, -- P
  0b11011000, -- Q
  0b01010000, -- R
  0b00010000, -- S
  0b11000000, -- T
  0b00110000, -- U
  0b00011000, -- V
  0b01110000, -- W
  0b10011000, -- X
  0b10111000, -- Y
  0b11001000, -- Z
  0b00110010, -- index 36, first special character
  0b01010110,
  0b10010100,
  0b11101000,
  0b11001110,
  0b11100010,
  0b10101010,
  0b01001010,
  0b00010011,
  0b01111010,
  0b10110100,
  0b10110110,
  0b10000110,
  0b01101010,
  0b00110110,
  0b01010010,
  0b10001100,
  0b00010110,
  0b01010100,
  0b10001011,
  0b01000100,
  0b10101100,
  0b00010100,
  0b01011000]

/-- The 24 special characters of yack.c (array spechar), given as ASCII
codes. The string in the source is "?./!,:;~$^()-@_|=#+*%&<>"; its entry i
pairs with morse entry 36 + i. -/
def spechar : List Nat :=
  [63, 46, 47, 33, 44, 58, 59, 126, 36, 94, 40, 41,
   45, 64, 95, 124, 61, 35, 43, 42, 37, 38, 60, 62]

/-- The encode lookup of yackchar: digits map to the first ten morse
entries, lower and upper case letters to entries 10 to 35, and each
character found in spechar to the entry 36 positions after its index.
An unmapped character keeps the empty code 0x80. -/
def charcode (c : Nat) : Nat :=
  let code := 0x80
  let code := if 48 ≤ c ∧ c ≤ 57 then morse.getD (c - 48) 0 else code
  let code := if 97 ≤ c ∧ c ≤ 122 then morse.getD (c - 97 + 10) 0 else code
  let code := if 65 ≤ c ∧ c ≤ 90 then morse.getD (c - 65 + 10) 0 else code
  (List.range 24).foldl
    (fun acc i => if c = spechar.getD i 0 then morse.getD (i + 36) 0 else acc)
    code

/-- The decode lookup of morsechar in yack.c: the first morse entry equal to
the buffer determines the character; index below 10 yields a digit, below 36
an upper case letter, otherwise the matching special character. No match
yields 0 (the C function returns the NUL character). -/
def morsechar (buffer : Nat) : Nat :=
  match morse.findIdx? (fun b => b = buffer) with
  | Option.none => 0
  | Option.some i =>
    if i < 10 then 48 + i
    else if i < 36 then 65 + i - 10
    else spechar.getD (i - 36) 0

/-- Case normalization as the spec uses it: lower case letters map to upper
case, everything else is unchanged. -/
def normalizeChar (c : Nat) : Nat :=
  if 97 ≤ c ∧ c ≤ 122 then c - 32 else c

/-- All characters that have a codebook entry: digits, upper case letters,
lower case letters and the special characters. -/
def codebookDomain : List Nat :=
  (List.range 10).map (fun i => 48 + i)
    ++ (List.range 26).map (fun i => 65 + i)
    ++ (List.range 26).map (fun i => 97 + i)
    ++ spechar

/-- The element loop of yackchar, read off a code byte: while the code is not
0x80, the top bit selects dah (true) or dit (false) and the code shifts left
by one inside a byte. Every nonzero byte reaches 0x80 within at most 7
shifts, so fuel 8 reproduces the C loop on every code the table can
produce. -/
def elemsAux : Nat → Nat → List Bool
  | 0, _ => []
  | fuel + 1, code =>
    if code = 0x80 then []
    else (128 ≤ code) :: elemsAux fuel ((code * 2) % 256)

/-- The dit/dah element sequence of a code byte (true = dah). -/
def elementsOfCode (code : Nat) : List Bool :=
  elemsAux 8 code

/-- The pending cancellation signal, abstracting yackctrlkey: none means the
command key is never pressed, some n means the n-th upcoming check is the
first one that reports a pending command key press, which then stays pending. -/
def checkCancel : Option Nat → Bool × Option Nat
  | Option.none => (false, Option.none)
  | Option.some 0 => (true, Option.some 0)
  | Option.some (n + 1) => (false, Option.some n)

/-- The keying loop inside yackchar: before each element the control key is
polled (yackctrlkey FALSE); when it reports a press the function returns at
once, dropping the remaining elements of the character. Returns the elements
actually played and the remaining cancellation state. -/
def playElems : List Bool → Option Nat → List Bool × Option Nat
  | [], st => ([], st)
  | e :: es, st =>
    let c := checkCancel st
    if c.1 then ([], c.2)
    else
      let r := playElems es c.2
      (e :: r.1, r.2)

/-- Denotation of yackchar restricted to what it keys: a space plays no
elements (it only waits out the word gap, without any control key poll); any
other character plays the elements of its code, polling the control key
before each element. -/
def yackchar (ch : Nat) (st : Option Nat) : List Bool × Option Nat :=
  if ch = 32 then ([], st)
  else playElems (elementsOfCode (charcode ch)) st

/-- Denotation of yackstring: characters are read in order; before sending
each one the control key is polled (yackctrlkey TRUE) and a reported press
stops the loop, leaving the rest of the string unsent. Returns the list of
characters reached together with the elements each one actually keyed. -/
def yackstring : List Nat → Option Nat → List (Nat × List Bool) × Option Nat
  | [], st => ([], st)
  | ch :: rest, st =>
    let c := checkCancel st
    if c.1 then ([], c.2)
    else
      let r := yackchar ch c.2
      let t := yackstring rest r.2
      ((ch, r.1) :: t.1, t.2)

/-- The full element sequence a character would key when not cancelled. -/
def charElems (ch : Nat) : List Bool :=
  if ch = 32 then [] else elementsOfCode (charcode ch)

/-- One list leads another when it is an initial segment of it. -/
def isFrontOf (xs ys : List Bool) : Prop :=
  ys.take xs.length = xs

/-- Direction argument of yackspeed. -/
inductive Dir
  | up
  | down
deriving DecidableEq, Repr

/-- Mode argument of yackspeed: adjust the WPM speed or the Farnsworth
pause. -/
inductive SpeedMode
  | wpmspeed
  | farns
deriving DecidableEq, Repr

/-- The speed related module state of yack.c. -/
structure SpeedState where
  wpm : Nat
  farnsworth : Nat
  wpmcnt : Nat
deriving DecidableEq, Repr

/-- yackspeed from yack.c: in FARNSWORTH mode, UP decrements the pause while
it is positive and DOWN increments it while below maxfarn; in WPMSPEED mode,
UP increments wpm while below maxwpm, DOWN decrements it while above minwpm,
and wpmcnt is recomputed as (1200 / YACKBEAT) / wpm with truncating integer
division. The bounds are passed as parameters because yack.h is not part of
src. -/
def yackspeed (minwpm maxwpm maxfarn : Nat) (dir : Dir) (mode : SpeedMode)
    (s : SpeedState) : SpeedState :=
  match mode with
  | SpeedMode.farns =>
    let f := if dir = Dir.up ∧ 0 < s.farnsworth then s.farnsworth - 1
             else s.farnsworth
    let f := if dir = Dir.down ∧ f < maxfarn then f + 1 else f
    { s with farnsworth := f }
  | SpeedMode.wpmspeed =>
    let w := if dir = Dir.up ∧ s.wpm < maxwpm then s.wpm + 1 else s.wpm
    let w := if dir = Dir.down ∧ minwpm < w then w - 1 else w
    { s with wpm := w, wpmcnt := (1200 / YACKBEAT) / w }

/-- The wpmcnt computation shared by yackinit and yackreset: both set
wpmcnt = (1200 / YACKBEAT) / wpm, yackinit with the wpm byte read back from
EEPROM and yackreset with DEFWPM. -/
def initWpmcnt (wpm : Nat) : Nat :=
  (1200 / YACKBEAT) / wpm

/-- Rounding to the nearest integer (half rounds up), as the real valued
expression round(1200 / heartbeat / wpm) of the spec: roundDiv a b is
round(a / b) for positive b. -/
def roundDiv (a b : Nat) : Nat :=
  (2 * a + b) / (2 * b)

/-- Modelled from the spec: size of a message slot, 100 characters (yack.h is
not part of src, but the two EEPROM buffers in yack.c are declared with
length 100). -/
def RBSIZE : Nat := 100

/-- One heartbeat of input to the recording loop of yackmessage: whether
yackctrlkey reports a command key press this tick, and the character the
iambic FSM returned this tick (0 for none). -/
structure RecInput where
  ctrl : Bool
  ch : Nat
deriving DecidableEq, Repr

/-- The two EEPROM message slots. -/
structure Eeprom where
  slot1 : List Nat
  slot2 : List Nat
deriving DecidableEq, Repr

/-- The save step after the recording loop of yackmessage times out: when
anything was received, the last character is overwritten with the 0 end
marker and the buffer is written to the selected slot; otherwise the error
prosign sounds and nothing is written. -/
def finishRecord (buf : List Nat) (ee : Eeprom) (msgnr : Nat) : Eeprom :=
  if buf = [] then ee
  else if msgnr = 1 then { ee with slot1 := buf.dropLast }
  else if msgnr = 2 then { ee with slot2 := buf.dropLast }
  else ee

/-- The RECORD loop of yackmessage: each heartbeat first polls yackctrlkey
(a reported press returns at once, without touching EEPROM), then appends a
character received from the FSM to the RAM buffer (restarting the timeout),
then on reaching RBSIZE characters sounds the error prosign and clears the
buffer. When the timeout expires, or the input ends and the remaining
heartbeats bring no key activity, the buffer is saved. The returned flag is
true exactly when the loop ended through the command key. -/
def recordLoop (reload : Nat) :
    List RecInput → Nat → List Nat → Eeprom → Nat → Eeprom × Bool
  | _, 0, buf, ee, msgnr => (finishRecord buf ee msgnr, false)
  | [], _ + 1, buf, ee, msgnr => (finishRecord buf ee msgnr, false)
  | inp :: rest, extimer + 1, buf, ee, msgnr =>
    if inp.ctrl then (ee, true)
    else
      let buf' := if inp.ch ≠ 0 then buf ++ [inp.ch] else buf
      let ext' := if inp.ch ≠ 0 then reload else extimer
      let buf'' := if RBSIZE ≤ buf'.length then [] else buf'
      recordLoop reload rest ext' buf'' ee msgnr

/-- iambicState_t from yack.c. -/
inductive IambicState
  | idle
  | dahditInit
  | dahdit
  | ieg
  | icg
  | iwg
deriving DecidableEq, Repr

/-- symbol_t from yack.c. -/
inductive Symbol
  | none
  | dit
  | dah
  | opposite
deriving DecidableEq, Repr

/-- pressedKeys_t from yack.c. -/
inductive PressedKeys
  | none
  | one
  | both
  | dontCare
deriving DecidableEq, Repr

/-- The value of volflags masked by SQUEEZED (the two paddle latch bits):
no paddle, the dit latch alone, the dah latch alone, or both. -/
inductive Keys
  | none
  | dit
  | dah
  | both
deriving DecidableEq, Repr

/-- The raw paddle contacts during one heartbeat (true = contact closed). -/
structure PaddleInput where
  dit : Bool
  dah : Bool
deriving DecidableEq, Repr

/-- The static variables of yackiambic together with the key output line. -/
structure IambicSt where
  iambicState : IambicState
  timer : Nat
  debounceTimer : Nat
  currentSymbol : Symbol
  nextSymbol : Symbol
  pressedKeys : PressedKeys
  keystate : Keys
  buffer : Nat
  bufctr : Nat
  keyDown : Bool
deriving DecidableEq, Repr

/-- The initial state: all statics of yackiambic are zero initialized and the
key line is up. -/
def initSt : IambicSt :=
  { iambicState := IambicState.idle
    timer := 0
    debounceTimer := 0
    currentSymbol := Symbol.none
    nextSymbol := Symbol.none
    pressedKeys := PressedKeys.none
    keystate := Keys.none
    buffer := 0
    bufctr := 0
    keyDown := false }

/-- The configuration yackiambic reads from module state: the dot length in
heartbeats (wpmcnt), whether the mode bits select IAMBICB, the ctrl argument
(report word boundaries as spaces), the debounce reload value
KEYDEBOUNCE / YACKBEAT, and the paddle swap flag. -/
structure Cfg where
  wpmcnt : Nat
  modeB : Bool
  ctrl : Bool
  debounce : Nat
  swap : Bool
deriving DecidableEq, Repr

/-- keylatch from yack.c, reduced to its per tick effect: each closed paddle
contact sets its latch bit, with the two bits exchanged when the PDLSWAP
flag is set. The latch bits are cleared again in the same tick after the
debounce comparison, so they reduce to the sampled pair. -/
def keylatch (cfg : Cfg) (inp : PaddleInput) : Keys :=
  let d := if cfg.swap then inp.dah else inp.dit
  let a := if cfg.swap then inp.dit else inp.dah
  match d, a with
  | false, false => Keys.none
  | true, false => Keys.dit
  | false, true => Keys.dah
  | true, true => Keys.both

/-- The head of yackiambic before the state switch: both timers count down;
when the debounce timer has reached zero the paddles are latched and
compared against the debounced keystate, and on a difference the new value
is stored at once while the debounce timer restarts. -/
def sample (cfg : Cfg) (inp : PaddleInput) (s : IambicSt) : IambicSt :=
  let s := { s with timer := s.timer - 1, debounceTimer := s.debounceTimer - 1 }
  if s.debounceTimer = 0 then
    let latched := keylatch cfg inp
    if s.keystate ≠ latched then
      { s with debounceTimer := cfg.debounce, keystate := latched }
    else s
  else s

/-- The STATE_IDLE / STATE_ICG / STATE_IWG case of the switch: a pressed
paddle chooses the next symbol (a squeeze leaves nextSymbol as it was) and
moves to STATE_DAHDIT_INIT with an immediate repeat; otherwise, when the gap
timer has expired, STATE_ICG terminates and decodes the pattern buffer and
arms the word gap, and STATE_IWG returns a space (when ctrl is ON) and falls
back to STATE_IDLE. The return value is the state, the repeat flag and the
returned character (0 for none). -/
def waitingCase (cfg : Cfg) (s : IambicSt) (retchar : Nat) :
    IambicSt × Bool × Nat :=
  let s0 := s
  let st1 :=
    if s0.keystate ≠ Keys.none then
      let next :=
        if s0.keystate = Keys.dit then Symbol.dit
        else if s0.keystate = Keys.dah then Symbol.dah
        else s0.nextSymbol
      { s0 with nextSymbol := next, iambicState := IambicState.dahditInit }
    else s0
  let repeat1 := s0.keystate ≠ Keys.none
  if st1.iambicState ≠ IambicState.idle ∧ st1.timer = 0 then
    if st1.iambicState = IambicState.icg then
      let b1 := (st1.buffer * 2) % 256 + 1
      let b2 := (b1 * 2 ^ (7 - st1.bufctr)) % 256
      -- In C the shift amount 7 - bufctr is an int and becomes negative
      -- when bufctr exceeds 7, which is undefined behaviour; the Nat
      -- subtraction used here yields shift 0 in that region, and no theorem
      -- below depends on a decode with bufctr above 7.
      let ch := morsechar b2
      (({ st1 with buffer := 0, bufctr := 0,
                   timer := (IWGLEN - ICGLEN) * cfg.wpmcnt,
                   iambicState := IambicState.iwg } : IambicSt),
       repeat1, ch)
    else if st1.iambicState = IambicState.iwg then
      (({ st1 with iambicState := IambicState.idle } : IambicSt), repeat1,
       if cfg.ctrl then 32 else retchar)
    else (st1, repeat1, retchar)
  else (st1, repeat1, retchar)

/-- The STATE_DAHDIT_INIT case: the pending symbol becomes current, the
pattern buffer shifts left (a dah appends a 1) and the element counter
increments, the element timer is armed, and the pressed keys classification
is derived from the debounced keystate; in IAMBICB a squeeze found here
already pre-arms the opposite element, a single pressed paddle opposite to
the current symbol arms that paddle and marks PRESSED_DONT_CARE. The key
goes down and the state becomes STATE_DAHDIT. A leftover SYMBOL_NONE (or
SYMBOL_OPPOSITE) falls back to STATE_IDLE after the buffer was already
shifted, exactly as the C default branch with continue does. -/
def dahditInit (cfg : Cfg) (s : IambicSt) : IambicSt :=
  let cur := s.nextSymbol
  let s := { s with currentSymbol := cur, nextSymbol := Symbol.none,
                    buffer := (s.buffer * 2) % 256,
                    bufctr := (s.bufctr + 1) % 256 }
  match cur with
  | Symbol.dit =>
    let s := { s with timer := DITLEN * cfg.wpmcnt }
    let s :=
      match s.keystate with
      | Keys.both =>
        { s with pressedKeys := PressedKeys.both,
                 nextSymbol := if cfg.modeB then Symbol.opposite
                               else s.nextSymbol }
      | Keys.dit => { s with pressedKeys := PressedKeys.one }
      | Keys.dah =>
        { s with pressedKeys := PressedKeys.dontCare, nextSymbol := Symbol.dah }
      | Keys.none => { s with pressedKeys := PressedKeys.none }
    { s with keyDown := true, iambicState := IambicState.dahdit }
  | Symbol.dah =>
    let s := { s with timer := DAHLEN * cfg.wpmcnt, buffer := s.buffer + 1 }
    let s :=
      match s.keystate with
      | Keys.both =>
        { s with pressedKeys := PressedKeys.both,
                 nextSymbol := if cfg.modeB then Symbol.opposite
                               else s.nextSymbol }
      | Keys.dah => { s with pressedKeys := PressedKeys.one }
      | Keys.dit =>
        { s with pressedKeys := PressedKeys.dontCare, nextSymbol := Symbol.dit }
      | Keys.none => { s with pressedKeys := PressedKeys.none }
    { s with keyDown := true, iambicState := IambicState.dahdit }
  | _ => { s with iambicState := IambicState.idle }

/-- The squeeze tracking at the top of the STATE_DAHDIT / STATE_IEG case:
the pressed keys classification follows the live debounced keystate, and a
tap or squeeze arriving during the element or gap arms the corresponding
next symbol and marks PRESSED_DONT_CARE. -/
def trackKeys (s : IambicSt) : IambicSt :=
  match s.pressedKeys with
  | PressedKeys.both =>
    if s.keystate = Keys.none then { s with pressedKeys := PressedKeys.none }
    else if s.keystate ≠ Keys.both then { s with pressedKeys := PressedKeys.one }
    else s
  | PressedKeys.one =>
    if s.keystate = Keys.both then
      { s with nextSymbol := Symbol.opposite,
               pressedKeys := PressedKeys.dontCare }
    else if s.keystate = Keys.none then
      { s with pressedKeys := PressedKeys.none }
    else s
  | PressedKeys.none =>
    if s.keystate = Keys.both then
      { s with nextSymbol := Symbol.opposite,
               pressedKeys := PressedKeys.dontCare }
    else if s.keystate = Keys.dit then
      { s with nextSymbol := Symbol.dit, pressedKeys := PressedKeys.dontCare }
    else if s.keystate = Keys.dah then
      { s with nextSymbol := Symbol.dah, pressedKeys := PressedKeys.dontCare }
    else s
  | PressedKeys.dontCare => s

/-- The STATE_DAHDIT / STATE_IEG case: after the squeeze tracking, an expired
element timer (STATE_DAHDIT) arms the opposite element when both paddles are
still classified as pressed, raises the key and starts the inter element
gap; an expired gap timer (STATE_IEG) resolves the next symbol (a single
held paddle repeats it, SYMBOL_OPPOSITE resolves against the current
symbol), then either starts the next element with an immediate repeat or
enters STATE_ICG with the timer (ICGLEN - IEGLEN - 1) * wpmcnt. -/
def dahditIeg (cfg : Cfg) (s : IambicSt) : IambicSt × Bool :=
  let s := trackKeys s
  if s.timer = 0 then
    if s.iambicState = IambicState.dahdit then
      let s :=
        if s.pressedKeys = PressedKeys.both then
          { s with nextSymbol := Symbol.opposite,
                   pressedKeys := PressedKeys.dontCare }
        else s
      ({ s with keyDown := false, timer := IEGLEN * cfg.wpmcnt,
                iambicState := IambicState.ieg }, false)
    else
      let s :=
        if s.pressedKeys = PressedKeys.one then
          { s with nextSymbol :=
              if s.keystate = Keys.dit then Symbol.dit
              else if s.keystate = Keys.dah then Symbol.dah
              else Symbol.none }
        else s
      let s :=
        if s.nextSymbol = Symbol.opposite then
          { s with nextSymbol :=
              if s.currentSymbol = Symbol.dit then Symbol.dah
              else Symbol.dit }
        else s
      if s.nextSymbol = Symbol.none then
        ({ s with iambicState := IambicState.icg,
                  timer := (ICGLEN - IEGLEN - 1) * cfg.wpmcnt }, false)
      else
        ({ s with iambicState := IambicState.dahditInit }, true)
  else (s, false)

/-- One pass through the switch statement of yackiambic, returning the new
state, the repeat flag of the do while loop, and the returned character. -/
def stepOnce (cfg : Cfg) (s : IambicSt) (retchar : Nat) :
    IambicSt × Bool × Nat :=
  match s.iambicState with
  | IambicState.idle => waitingCase cfg s retchar
  | IambicState.icg => waitingCase cfg s retchar
  | IambicState.iwg => waitingCase cfg s retchar
  | IambicState.dahditInit => (dahditInit cfg s, false, retchar)
  | IambicState.dahdit =>
    let r := dahditIeg cfg s
    (r.1, r.2, retchar)
  | IambicState.ieg =>
    let r := dahditIeg cfg s
    (r.1, r.2, retchar)

/-- The do while loop of yackiambic: the switch repeats in the same tick
while repeatCycle is set. The C loop runs at most twice per tick (only a
transition into STATE_DAHDIT_INIT sets repeatCycle, and that case never sets
it), so any fuel of at least two reproduces it; fuel 8 is used. -/
def doLoop (cfg : Cfg) : Nat → IambicSt → Nat → IambicSt × Nat
  | 0, s, retchar => (s, retchar)
  | fuel + 1, s, retchar =>
    let r := stepOnce cfg s retchar
    if r.2.1 then doLoop cfg fuel r.1 r.2.2 else (r.1, r.2.2)

/-- One call of yackiambic (one heartbeat): timers count down, the paddles
are debounced into keystate, then the state machine runs until stable.
Returns the new state and the returned character (0 for none, matching the
NUL character the C function returns). -/
def yackiambic (cfg : Cfg) (inp : PaddleInput) (s : IambicSt) :
    IambicSt × Nat :=
  doLoop cfg 8 (sample cfg inp s) 0

/-- Feed a list of per tick paddle inputs to yackiambic, collecting the
returned character of every tick. -/
def runTrace (cfg : Cfg) (s : IambicSt) :
    List PaddleInput → IambicSt × List Nat
  | [] => (s, [])
  | inp :: rest =>
    let r := yackiambic cfg inp s
    let t := runTrace cfg r.1 rest
    (t.1, r.2 :: t.2)

/-- Configuration used in the concrete scenario runs: wpmcnt 4 (the value
yackspeed computes at 50 WPM with the 5 ms heartbeat), IAMBICA, word
boundaries not reported, debounce hold off of 2 ticks, no paddle swap. -/
def cfgModeA : Cfg :=
  { wpmcnt := 4, modeB := false, ctrl := false, debounce := 2, swap := false }

/-- Scenario for claim C1: the dit paddle alone is held for 8 ticks (a dit
element and its trailing gap), then both paddles are pressed and held; the
squeeze therefore lands exactly at the start of the second element. -/
def squeezeInputs : List PaddleInput :=
  List.replicate 8 { dit := true, dah := false }
    ++ List.replicate 17 { dit := true, dah := true }

/-- Scenario for claims C2 / C6: the dit paddle closes for a single tick and
stays open afterwards. -/
def ditBlipInputs : List PaddleInput :=
  { dit := true, dah := false } :: List.replicate 12 { dit := false, dah := false }

/-- Scenario for claim C4: the dah paddle is held for 129 ticks, which keys
nine consecutive dah elements. -/
def dahHoldInputs : List PaddleInput :=
  List.replicate 129 { dit := false, dah := true }

-- ***************************************************************************
-- Helper lemmas
-- ***************************************************************************

/-- The squeeze tracking never writes keystate. -/
theorem trackKeys_keystate (s : IambicSt) :
    (trackKeys s).keystate = s.keystate := by
  cases hp : s.pressedKeys <;> cases hk : s.keystate <;>
    simp [trackKeys, hp, hk]

/-- The element and gap case never writes keystate. -/
theorem dahditIeg_keystate (cfg : Cfg) (s : IambicSt) :
    (dahditIeg cfg s).1.keystate = s.keystate := by
  unfold dahditIeg
  generalize hT : trackKeys s = t
  have h : t.keystate = s.keystate := by
    rw [← hT]; exact trackKeys_keystate s
  dsimp only
  repeat' (first | rfl | split | simp_all)

/-- The waiting case never writes keystate. -/
theorem waitingCase_keystate (cfg : Cfg) (s : IambicSt) (r : Nat) :
    (waitingCase cfg s r).1.keystate = s.keystate := by
  unfold waitingCase
  dsimp only
  repeat' (first | rfl | split | simp_all)

/-- The element start case never writes keystate. -/
theorem dahditInit_keystate (cfg : Cfg) (s : IambicSt) :
    (dahditInit cfg s).keystate = s.keystate := by
  unfold dahditInit
  dsimp only
  repeat' (first | rfl | split | simp_all)

/-- The state switch of yackiambic never writes keystate: only the debounce
sampling at the head of the function does. -/
theorem stepOnce_keystate (cfg : Cfg) (s : IambicSt) (r : Nat) :
    (stepOnce cfg s r).1.keystate = s.keystate := by
  cases h : s.iambicState <;>
    simp only [stepOnce, h] <;>
    first
      | exact waitingCase_keystate cfg s r
      | exact dahditInit_keystate cfg s
      | exact dahditIeg_keystate cfg s

/-- keystate is invariant across the whole do while loop. -/
theorem doLoop_keystate (cfg : Cfg) (fuel : Nat) :
    ∀ (s : IambicSt) (r : Nat), (doLoop cfg fuel s r).1.keystate = s.keystate := by
  induction fuel with
  | zero => intro s r; rfl
  | succ n ih =>
    intro s r
    simp only [doLoop]
    split
    · rw [ih]; exact stepOnce_keystate cfg s r
    · exact stepOnce_keystate cfg s r

/-- A check that reports a pending cancellation leaves the signal pinned at
some 0. -/
theorem checkCancel_true {st : Option Nat} (h : (checkCancel st).1 = true) :
    st = Option.some 0 ∧ (checkCancel st).2 = Option.some 0 := by
  match st with
  | Option.none => simp [checkCancel] at h
  | Option.some 0 => exact ⟨rfl, rfl⟩
  | Option.some (n + 1) => simp [checkCancel] at h

/-- The elements a possibly cancelled character keying actually plays form an
initial segment of the requested elements. -/
theorem playElems_front (es : List Bool) (st : Option Nat) :
    isFrontOf (playElems es st).1 es := by
  induction es generalizing st with
  | nil => simp [playElems, isFrontOf]
  | cons e es ih =>
    simp only [playElems]
    split
    · simp [isFrontOf]
    · simpa [isFrontOf, List.take_succ_cons] using ih (checkCancel st).2

/-- A character keying that stops short of the full element list was
cancelled, and the cancellation signal stays pinned. -/
theorem playElems_ne (es : List Bool) (st : Option Nat)
    (h : (playElems es st).1 ≠ es) : (playElems es st).2 = Option.some 0 := by
  induction es generalizing st with
  | nil => simp [playElems] at h
  | cons e es ih =>
    simp only [playElems] at h ⊢
    by_cases hc : (checkCancel st).1 = true
    · rw [if_pos hc]
      exact (checkCancel_true hc).2
    · rw [if_neg hc] at h ⊢
      have h2 : (playElems es (checkCancel st).2).1 ≠ es := by
        intro he
        exact h (by rw [show (playElems es (checkCancel st).2).1 = es from he])
      exact ih _ h2

/-- A pinned cancellation signal stops yackstring before any character. -/
theorem yackstring_cancelled (s : List Nat) :
    yackstring s (Option.some 0) = ([], Option.some 0) := by
  cases s <;> rfl

/-- The elements yackchar plays form an initial segment of the full element
list of the character. -/
theorem yackchar_front (ch : Nat) (st : Option Nat) :
    isFrontOf (yackchar ch st).1 (charElems ch) := by
  unfold yackchar charElems
  split
  · simp [isFrontOf]
  · exact playElems_front _ st

/-- A truncated yackchar pins the cancellation signal. -/
theorem yackchar_ne (ch : Nat) (st : Option Nat)
    (h : (yackchar ch st).1 ≠ charElems ch) :
    (yackchar ch st).2 = Option.some 0 := by
  by_cases hc : ch = 32
  · simp [yackchar, charElems, hc] at h
  · simp only [yackchar, charElems, hc, if_neg] at h ⊢
    exact playElems_ne _ st h

/-- Nearest integer rounding of a quotient, split into the truncating
quotient and a carry from the remainder. -/
theorem roundDiv_eq (a b : Nat) (hb : 0 < b) :
    roundDiv a b = a / b + if b ≤ 2 * (a % b) then 1 else 0 := by
  unfold roundDiv
  conv_lhs => rw [← Nat.div_add_mod a b]
  have h1 : 2 * (b * (a / b) + a % b) + b
      = (2 * (a % b) + b) + (2 * b) * (a / b) := by ring
  rw [h1, Nat.add_mul_div_left _ _ (by omega : 0 < 2 * b)]
  have hr : a % b < b := Nat.mod_lt _ hb
  by_cases h : b ≤ 2 * (a % b)
  · have h2 : (2 * (a % b) + b) / (2 * b) = 1 := by
      apply Nat.div_eq_of_lt_le <;> omega
    rw [h2, if_pos h]; omega
  · have h2 : (2 * (a % b) + b) / (2 * b) = 0 := Nat.div_eq_of_lt (by omega)
    rw [h2, if_neg h]; omega

/-- One yackspeed call keeps wpm inside [minwpm, maxwpm] and farnsworth
inside [0, maxfarn], and moves each of the two by at most one. -/
theorem yackspeed_step (minwpm maxwpm maxfarn : Nat) (dir : Dir)
    (mode : SpeedMode) (s : SpeedState) :
    let s' := yackspeed minwpm maxwpm maxfarn dir mode s
    (minwpm ≤ s.wpm → minwpm ≤ s'.wpm) ∧
    (s.wpm ≤ maxwpm → s'.wpm ≤ maxwpm) ∧
    (s.farnsworth ≤ maxfarn → s'.farnsworth ≤ maxfarn) ∧
    s'.wpm ≤ s.wpm + 1 ∧ s.wpm ≤ s'.wpm + 1 ∧
    s'.farnsworth ≤ s.farnsworth + 1 ∧ s.farnsworth ≤ s'.farnsworth + 1 := by
  cases mode <;> cases dir <;>
    simp only [yackspeed] <;> (try dsimp only) <;>
    refine ⟨?_, ?_, ?_, ?_, ?_, ?_, ?_⟩ <;>
    intros <;> (try simp) <;> (repeat' split) <;> omega

-- ***************************************************************************
-- Claim theorems
-- ***************************************************************************

/-- C5: for every character that has an entry in the Morse codebook (digits,
letters, mapped punctuation and prosigns), decoding the encoded pattern
yields the case normalized character: morsechar (charcode c) equals
normalizeChar c, which maps lower case letters to upper case. -/
theorem C5_codec_roundtrip :
    ∀ c ∈ codebookDomain, morsechar (charcode c) = normalizeChar c := by
  decide

/-- Witness for C5 at the lower case letter a (ASCII 97), whose decoded
encoding is A (ASCII 65). -/
theorem C5_codec_roundtrip_witness :
    morsechar (charcode 97) = normalizeChar 97 :=
  C5_codec_roundtrip 97 (by decide)

/-- C10: in Farnsworth mode the direction mapping of yackspeed is inverted
relative to WPM mode: UP decrements the Farnsworth pause by 1 (floored at
0), DOWN increments it by 1 (clamped at maxfarn), while wpm and wpmcnt are
untouched; in WPM mode UP increments wpm. -/
theorem C10_farnsworth_direction_inverted
    (minwpm maxwpm maxfarn : Nat) (dir : Dir) (s : SpeedState) :
    (yackspeed minwpm maxwpm maxfarn Dir.up SpeedMode.farns s).farnsworth
      = s.farnsworth - 1 ∧
    (yackspeed minwpm maxwpm maxfarn Dir.down SpeedMode.farns s).farnsworth
      = (if s.farnsworth < maxfarn then s.farnsworth + 1 else s.farnsworth) ∧
    (yackspeed minwpm maxwpm maxfarn dir SpeedMode.farns s).wpm = s.wpm ∧
    (yackspeed minwpm maxwpm maxfarn dir SpeedMode.farns s).wpmcnt = s.wpmcnt ∧
    (yackspeed minwpm maxwpm maxfarn Dir.up SpeedMode.wpmspeed s).wpm
      = (if s.wpm < maxwpm then s.wpm + 1 else s.wpm) := by
  refine ⟨?_, ?_, ?_, ?_, ?_⟩ <;> cases dir <;>
    simp [yackspeed] <;> (repeat' split) <;> omega

/-- C7 fails on the code: at 9 WPM, inside the modelled [MINWPM, MAXWPM],
the speed change path and the initialization path both compute
wpmcnt = (1200 / 5) / 9 = 26 by truncating integer division, while the
claimed round(1200 / 5 / 9) is 27. -/
theorem C7_wpmcnt_round_counterexample :
    MINWPM ≤ 9 ∧ 9 ≤ MAXWPM ∧
    (yackspeed MINWPM MAXWPM 9 Dir.down SpeedMode.wpmspeed
        { wpm := 10, farnsworth := 0, wpmcnt := 24 }).wpm = 9 ∧
    (yackspeed MINWPM MAXWPM 9 Dir.down SpeedMode.wpmspeed
        { wpm := 10, farnsworth := 0, wpmcnt := 24 }).wpmcnt = 26 ∧
    initWpmcnt 9 = 26 ∧
    roundDiv 1200 (YACKBEAT * 9) = 27 ∧
    roundDiv (1200 / YACKBEAT) 9 = 27 ∧ (26 : Nat) ≠ 27 := by
  decide

/-- C7 amended: the dot unit tick length computed on a speed change and on
initialization is the truncating integer division (1200 / YACKBEAT) / wpm;
it agrees with the rounded value of the spec exactly when twice the division
remainder stays below wpm. -/
theorem C7_wpmcnt_truncating (minwpm maxwpm maxfarn : Nat) (dir : Dir)
    (s : SpeedState) (w : Nat) (hw : 0 < w) :
    (yackspeed minwpm maxwpm maxfarn dir SpeedMode.wpmspeed s).wpmcnt
      = (1200 / YACKBEAT)
          / (yackspeed minwpm maxwpm maxfarn dir SpeedMode.wpmspeed s).wpm ∧
    initWpmcnt w = (1200 / YACKBEAT) / w ∧
    (initWpmcnt w = roundDiv (1200 / YACKBEAT) w
      ↔ 2 * ((1200 / YACKBEAT) % w) < w) := by
  refine ⟨?_, rfl, ?_⟩
  · cases dir <;> simp [yackspeed]
  · rw [show initWpmcnt w = (1200 / YACKBEAT) / w from rfl,
        roundDiv_eq _ _ hw]
    split <;> omega

/-- Witness for C7 amended at the default speed 15 WPM, where the truncating
division and the rounded value agree at 16. -/
theorem C7_wpmcnt_truncating_witness :
    (0 : Nat) < 15 ∧
    (initWpmcnt 15 = roundDiv (1200 / YACKBEAT) 15
      ↔ 2 * ((1200 / YACKBEAT) % 15) < 15) :=
  ⟨by decide,
   (C7_wpmcnt_truncating 5 50 9 Dir.up
      { wpm := 15, farnsworth := 0, wpmcnt := 16 } 15 (by decide)).2.2⟩

/-- C8: under arbitrarily many yackspeed calls in either direction and
mode, wpm always stays within [minwpm, maxwpm] and the Farnsworth value
within [0, maxfarn] when they start there, and each single call changes
each of the two values by at most 1. -/
theorem C8_speed_clamped (minwpm maxwpm maxfarn : Nat)
    (ops : List (Dir × SpeedMode)) (s : SpeedState)
    (h1 : minwpm ≤ s.wpm) (h2 : s.wpm ≤ maxwpm) (h3 : s.farnsworth ≤ maxfarn) :
    (minwpm ≤ (ops.foldl
        (fun st p => yackspeed minwpm maxwpm maxfarn p.1 p.2 st) s).wpm ∧
     (ops.foldl
        (fun st p => yackspeed minwpm maxwpm maxfarn p.1 p.2 st) s).wpm
        ≤ maxwpm ∧
     (ops.foldl
        (fun st p => yackspeed minwpm maxwpm maxfarn p.1 p.2 st) s).farnsworth
        ≤ maxfarn) ∧
    ∀ (dir : Dir) (mode : SpeedMode),
      (yackspeed minwpm maxwpm maxfarn dir mode s).wpm ≤ s.wpm + 1 ∧
      s.wpm ≤ (yackspeed minwpm maxwpm maxfarn dir mode s).wpm + 1 ∧
      (yackspeed minwpm maxwpm maxfarn dir mode s).farnsworth
        ≤ s.farnsworth + 1 ∧
      s.farnsworth
        ≤ (yackspeed minwpm maxwpm maxfarn dir mode s).farnsworth + 1 := by
  constructor
  · induction ops generalizing s with
    | nil => exact ⟨h1, h2, h3⟩
    | cons p rest ih =>
      simp only [List.foldl_cons]
      have h := yackspeed_step minwpm maxwpm maxfarn p.1 p.2 s
      exact ih _ (h.1 h1) (h.2.1 h2) (h.2.2.1 h3)
  · intro dir mode
    have h := yackspeed_step minwpm maxwpm maxfarn dir mode s
    exact ⟨h.2.2.2.1, h.2.2.2.2.1, h.2.2.2.2.2.1, h.2.2.2.2.2.2⟩

/-- Witness for C8: starting from the default 15 WPM with no Farnsworth
pause inside bounds [5, 50] and [0, 9], two calls up in speed keep wpm in
range. -/
theorem C8_speed_clamped_witness :
    5 ≤ (List.foldl (fun st p => yackspeed 5 50 9 p.1 p.2 st)
          (SpeedState.mk 15 0 16)
          [(Dir.up, SpeedMode.wpmspeed), (Dir.up, SpeedMode.wpmspeed)]).wpm
    ∧ (List.foldl (fun st p => yackspeed 5 50 9 p.1 p.2 st)
          (SpeedState.mk 15 0 16)
          [(Dir.up, SpeedMode.wpmspeed), (Dir.up, SpeedMode.wpmspeed)]).wpm
        ≤ 50 :=
  ⟨(C8_speed_clamped 5 50 9 _ _ (by decide) (by decide) (by decide)).1.1,
   (C8_speed_clamped 5 50 9 _ _ (by decide) (by decide) (by decide)).1.2.1⟩

/-- C9: when the recording loop of yackmessage ends through the command key,
the EEPROM message slots are returned byte for byte unchanged: cancellation
is a normal control path that returns without saving. -/
theorem C9_record_cancel_eeprom_unchanged (reload : Nat)
    (inputs : List RecInput) (extimer : Nat) (buf : List Nat) (ee : Eeprom)
    (msgnr : Nat)
    (h : (recordLoop reload inputs extimer buf ee msgnr).2 = true) :
    (recordLoop reload inputs extimer buf ee msgnr).1 = ee := by
  induction inputs generalizing extimer buf with
  | nil => cases extimer <;> simp [recordLoop] at h
  | cons inp rest ih =>
    cases extimer with
    | zero => simp [recordLoop] at h
    | succ n =>
      by_cases hc : inp.ctrl = true
      · simp [recordLoop, hc]
      · simp only [recordLoop, hc, Bool.false_eq_true, if_false,
          if_neg] at h ⊢
        exact ih _ _ h

/-- Witness for C9: a recording that receives the character A and is then
cancelled by the command key leaves both message slots untouched. -/
theorem C9_record_cancel_witness :
    (recordLoop 5 [{ ctrl := false, ch := 65 }, { ctrl := true, ch := 0 }]
        9 [] { slot1 := [1, 2], slot2 := [3] } 1).2 = true ∧
    (recordLoop 5 [{ ctrl := false, ch := 65 }, { ctrl := true, ch := 0 }]
        9 [] { slot1 := [1, 2], slot2 := [3] } 1).1
      = { slot1 := [1, 2], slot2 := [3] } :=
  ⟨by decide,
   C9_record_cancel_eeprom_unchanged 5 _ 9 [] _ 1 (by decide)⟩

/-- C3 fails on the code in its no partial character part: sending the one
character string A with the command key arriving after the first element
truncates the character partway through: only the dit of the dit dah
pattern is keyed before the function stops. -/
theorem C3_partial_char_counterexample :
    (yackstring [65] (Option.some 2)).1 = [(65, [false])] ∧
    charElems 65 = [false, true] ∧
    ([false] : List Bool) ≠ [false, true] := by
  decide

/-- C3 amended: yackstring sends characters in order (the sent prefix of
the input string), polls cancellation before each character (a pending
cancellation stops before sending anything) and additionally before each
element inside yackchar; on cancellation the remainder is unsent, and a
character can be cut short, but only at an element boundary: the elements
actually keyed for every sent character form an initial segment of its full
pattern, and every sent character except possibly the last one is keyed
completely. -/
theorem C3_send_order_cancellation (s : List Nat) (st : Option Nat) :
    ((yackstring s st).1.map Prod.fst
        = s.take (yackstring s st).1.length) ∧
    (yackstring s (Option.some 0) = ([], Option.some 0)) ∧
    (∀ p ∈ (yackstring s st).1, isFrontOf p.2 (charElems p.1)) ∧
    (∀ i, i + 1 < (yackstring s st).1.length →
      ((yackstring s st).1.getD i (0, [])).2
        = charElems ((yackstring s st).1.getD i (0, [])).1) := by
  refine ⟨?_, yackstring_cancelled s, ?_, ?_⟩ <;>
  · induction s generalizing st with
    | nil => simp [yackstring]
    | cons ch rest ih =>
      simp only [yackstring]
      by_cases hc : (checkCancel st).1 = true
      · simp [hc]
      · simp only [hc, Bool.false_eq_true, if_false, if_neg]
        first
        | -- order of characters
          simpa [List.take_succ_cons]
            using ih (yackchar ch (checkCancel st).2).2
        | -- every sent character is a front of its pattern
          (intro p hp
           rcases List.mem_cons.mp hp with h | h
           · subst h; exact yackchar_front ch (checkCancel st).2
           · exact ih (yackchar ch (checkCancel st).2).2 p h)
        | -- all but the last character are complete
          (intro i hi
           cases i with
           | zero =>
             simp only [List.getD_cons_zero]
             by_contra hne
             have hpin := yackchar_ne ch (checkCancel st).2 hne
             rw [hpin, yackstring_cancelled rest] at hi
             simp at hi
           | succ j =>
             simp only [List.getD_cons_succ]
             apply ih (yackchar ch (checkCancel st).2).2 j
             simpa using hi)

/-- Witness for C3 amended: in the truncated run on the string A the sent
dit is an initial segment of the dit dah pattern of A. -/
theorem C3_send_order_cancellation_witness :
    isFrontOf [false] (charElems 65) :=
  (C3_send_order_cancellation [65] (Option.some 2)).2.2.1
    (65, [false]) (by decide)

/-- C2 fails on the code: a dit press lasting a single tick, shorter than
the two tick debounce hold off of the modelled configuration, latches at
once: in the very tick it is seen the debounced keystate becomes dit while
the hold off timer restarts, the FSM starts a dit element from it, and the
latched value persists on the next tick although the paddle is already open
again. -/
theorem C2_debounce_counterexample :
    initSt.keystate = Keys.none ∧ cfgModeA.debounce = 2 ∧
    ((yackiambic cfgModeA { dit := true, dah := false } initSt).1.keystate
        = Keys.dit ∧
     (yackiambic cfgModeA { dit := true, dah := false } initSt).1.debounceTimer
        = cfgModeA.debounce ∧
     (yackiambic cfgModeA { dit := true, dah := false } initSt).1.iambicState
        = IambicState.dahdit ∧
     (yackiambic cfgModeA { dit := true, dah := false } initSt).1.keyDown
        = true) ∧
    (yackiambic cfgModeA { dit := false, dah := false }
        (yackiambic cfgModeA { dit := true, dah := false } initSt).1).1.keystate
      = Keys.dit := by
  decide

/-- C2 amended: a paddle transition seen while the debounce hold off is
inactive latches immediately into the debounced keystate and restarts the
hold off, even when the transition is shorter than the hold off; while the
hold off timer is still running the paddles are not sampled, so the value
latched at the start of the hold off, not the prior value, remains the
authoritative key state, and the state switch of yackiambic reads exactly
that debounced value (it never writes keystate itself). -/
theorem C2_debounce_amended (cfg : Cfg) (inp : PaddleInput) (s : IambicSt) :
    (s.debounceTimer ≤ 1 →
      (sample cfg inp s).keystate = keylatch cfg inp ∧
      (s.keystate ≠ keylatch cfg inp →
        (sample cfg inp s).debounceTimer = cfg.debounce)) ∧
    (1 < s.debounceTimer →
      (sample cfg inp s).keystate = s.keystate ∧
      (sample cfg inp s).debounceTimer = s.debounceTimer - 1) ∧
    (yackiambic cfg inp s).1.keystate = (sample cfg inp s).keystate := by
  refine ⟨?_, ?_, doLoop_keystate cfg 8 _ 0⟩
  · intro hd
    unfold sample
    dsimp only
    rw [if_pos (by omega : s.debounceTimer - 1 = 0)]
    by_cases hk : s.keystate = keylatch cfg inp
    · rw [if_neg (by simp [hk])]
      exact ⟨hk, fun hcontra => absurd hk hcontra⟩
    · rw [if_pos hk]
      exact ⟨rfl, fun _ => rfl⟩
  · intro hd
    unfold sample
    dsimp only
    rw [if_neg (by omega : ¬s.debounceTimer - 1 = 0)]
    exact ⟨rfl, rfl⟩

/-- Witness for C2 amended: from the initial state (hold off inactive) a
closed dit contact latches immediately as the debounced keystate. -/
theorem C2_debounce_amended_witness :
    (sample cfgModeA { dit := true, dah := false } initSt).keystate
      = keylatch cfgModeA { dit := true, dah := false } :=
  ((C2_debounce_amended cfgModeA { dit := true, dah := false } initSt).1
    (by decide)).1

/-- C1 fails on the code in its Mode A part: in the squeeze scenario both
paddles are pressed exactly at the start of the second element (a dah,
tick 9: keystate both, squeeze memory PRESSED_BOTH, nothing pre-armed since
the mode is IAMBICA) and held; Mode A does not emit only that element: it
keeps alternating, and at tick 25 a third element (a dit, the opposite of
the dah) is already sounding while both paddles are still held. -/
theorem C1_modeA_squeeze_counterexample :
    cfgModeA.modeB = false ∧
    ((runTrace cfgModeA initSt (squeezeInputs.take 9)).1.currentSymbol
        = Symbol.dah ∧
     (runTrace cfgModeA initSt (squeezeInputs.take 9)).1.keystate
        = Keys.both ∧
     (runTrace cfgModeA initSt (squeezeInputs.take 9)).1.pressedKeys
        = PressedKeys.both ∧
     (runTrace cfgModeA initSt (squeezeInputs.take 9)).1.nextSymbol
        = Symbol.none ∧
     (runTrace cfgModeA initSt (squeezeInputs.take 9)).1.bufctr = 2) ∧
    ((runTrace cfgModeA initSt squeezeInputs).1.currentSymbol
        = Symbol.dit ∧
     (runTrace cfgModeA initSt squeezeInputs).1.keyDown = true ∧
     (runTrace cfgModeA initSt squeezeInputs).1.keystate = Keys.both ∧
     (runTrace cfgModeA initSt squeezeInputs).1.bufctr = 3) := by
  decide

/-- C1 amended: with both paddles pressed exactly at an element's start and
held, both modes alternate elements for as long as both stay pressed: the
squeeze found at the element start pre-arms the opposite element in Mode B
only, but in either mode a squeeze still held when the element timer
expires arms the opposite element then. The modes differ at release:
releasing both paddles during an element clears the squeeze memory without
arming anything, so at the following gap expiry Mode A, with nothing armed,
stops into STATE_ICG, while Mode B still plays the one opposite element it
pre-armed at the element start; Mode A arms an opposite element only
through the live tracking while the element or its trailing gap runs. -/
theorem C1_modes_squeeze_amended (cfg : Cfg) (s : IambicSt) :
    ((s.nextSymbol = Symbol.dit ∨ s.nextSymbol = Symbol.dah) →
      s.keystate = Keys.both →
      (dahditInit cfg s).pressedKeys = PressedKeys.both ∧
      (dahditInit cfg s).nextSymbol
        = (if cfg.modeB then Symbol.opposite else Symbol.none)) ∧
    (s.iambicState = IambicState.dahdit → s.timer = 0 →
      s.pressedKeys = PressedKeys.both → s.keystate = Keys.both →
      (dahditIeg cfg s).1.nextSymbol = Symbol.opposite ∧
      (dahditIeg cfg s).1.keyDown = false ∧
      (dahditIeg cfg s).1.iambicState = IambicState.ieg) ∧
    (s.pressedKeys = PressedKeys.both → s.keystate = Keys.none →
      (trackKeys s).pressedKeys = PressedKeys.none ∧
      (trackKeys s).nextSymbol = s.nextSymbol) ∧
    (s.iambicState = IambicState.ieg → s.timer = 0 →
      s.pressedKeys = PressedKeys.none → s.nextSymbol = Symbol.none →
      s.keystate = Keys.none →
      (dahditIeg cfg s).1.iambicState = IambicState.icg ∧
      (dahditIeg cfg s).2 = false) ∧
    (s.iambicState = IambicState.ieg → s.timer = 0 →
      s.pressedKeys = PressedKeys.none → s.nextSymbol = Symbol.opposite →
      s.keystate = Keys.none →
      (dahditIeg cfg s).1.iambicState = IambicState.dahditInit ∧
      (dahditIeg cfg s).1.nextSymbol
        = (if s.currentSymbol = Symbol.dit then Symbol.dah else Symbol.dit) ∧
      (dahditIeg cfg s).2 = true) := by
  refine ⟨?_, ?_, ?_, ?_, ?_⟩
  · rintro (h | h) hk <;>
      cases hb : cfg.modeB <;>
      simp [dahditInit, h, hk, hb]
  · intro h1 h2 h3 h4
    simp [dahditIeg, trackKeys, h1, h2, h3, h4]
  · intro h3 h5
    simp [trackKeys, h3, h5]
  · intro h1 h2 h3 h4 h5
    simp [dahditIeg, trackKeys, h1, h2, h3, h4, h5]
  · intro h1 h2 h3 h4 h5
    cases hcur : s.currentSymbol <;>
      simp [dahditIeg, trackKeys, h1, h2, h3, h4, h5, hcur]

/-- Witness for C1 amended: concrete instances of the element start pre-arm
(Mode B arms the opposite, Mode A does not) and of the alternation at
element expiry while both paddles stay held. -/
theorem C1_modes_squeeze_amended_witness :
    ((dahditInit { cfgModeA with modeB := true }
        { initSt with nextSymbol := Symbol.dah,
                      keystate := Keys.both }).nextSymbol
      = Symbol.opposite) ∧
    ((dahditInit cfgModeA
        { initSt with nextSymbol := Symbol.dah,
                      keystate := Keys.both }).nextSymbol
      = Symbol.none) ∧
    ((dahditIeg cfgModeA
        { initSt with iambicState := IambicState.dahdit, timer := 0,
                      pressedKeys := PressedKeys.both,
                      keystate := Keys.both }).1.nextSymbol
      = Symbol.opposite) := by
  refine ⟨?_, ?_, ?_⟩
  · have h := (C1_modes_squeeze_amended { cfgModeA with modeB := true }
      { initSt with nextSymbol := Symbol.dah, keystate := Keys.both }).1
      (Or.inr rfl) rfl
    simpa using h.2
  · have h := (C1_modes_squeeze_amended cfgModeA
      { initSt with nextSymbol := Symbol.dah, keystate := Keys.both }).1
      (Or.inr rfl) rfl
    simpa using h.2
  · exact ((C1_modes_squeeze_amended cfgModeA
      { initSt with iambicState := IambicState.dahdit, timer := 0,
                    pressedKeys := PressedKeys.both,
                    keystate := Keys.both }).2.1 rfl rfl rfl rfl).1

/-- C4 fails on the code: holding the dah paddle through nine consecutive
elements drives the element counter to 9, beyond the seven element maximum
pattern width of the codebook, while the 8 bit buffer silently dropped the
excess (nine dahs leave buffer = 255, an eight bit value) and no tick
returned a character or any other indication to the caller. -/
theorem C4_pattern_overflow_counterexample :
    (runTrace cfgModeA initSt dahHoldInputs).1.bufctr = 9 ∧
    7 < (runTrace cfgModeA initSt dahHoldInputs).1.bufctr ∧
    (runTrace cfgModeA initSt dahHoldInputs).1.buffer = 255 ∧
    (∀ c ∈ (runTrace cfgModeA initSt dahHoldInputs).2, c = 0) ∧
    (∀ p ∈ morse, (elementsOfCode p).length ≤ 7) := by
  decide

/-- C4 amended: the pattern accumulator is not bounded by the codebook
maximum width: every element start shifts the 8 bit buffer and increments
the element counter modulo 256 unconditionally, the excess bits are
silently discarded, and the tick that makes the counter exceed the width
returns no indication to the caller. -/
theorem C4_pattern_overflow_amended (cfg : Cfg) (s : IambicSt) (r : Nat) :
    (s.nextSymbol = Symbol.dit →
      (dahditInit cfg s).bufctr = (s.bufctr + 1) % 256 ∧
      (dahditInit cfg s).buffer = (s.buffer * 2) % 256) ∧
    (s.nextSymbol = Symbol.dah →
      (dahditInit cfg s).bufctr = (s.bufctr + 1) % 256 ∧
      (dahditInit cfg s).buffer = (s.buffer * 2) % 256 + 1) ∧
    (s.iambicState = IambicState.dahditInit →
      (stepOnce cfg s r).2.2 = r) := by
  refine ⟨?_, ?_, ?_⟩
  · intro h
    cases hk : s.keystate <;> simp [dahditInit, h, hk]
  · intro h
    cases hk : s.keystate <;> simp [dahditInit, h, hk]
  · intro h
    simp [stepOnce, h]

/-- Witness for C4 amended: from the state reached after eight held dah
elements, the ninth element start pushes the counter to 9 and keeps only
the low eight buffer bits, and that tick returns nothing. -/
theorem C4_pattern_overflow_amended_witness :
    ((dahditInit cfgModeA
        { initSt with nextSymbol := Symbol.dah, buffer := 255,
                      bufctr := 8 }).bufctr = (8 + 1) % 256 ∧
     (dahditInit cfgModeA
        { initSt with nextSymbol := Symbol.dah, buffer := 255,
                      bufctr := 8 }).buffer = (255 * 2) % 256 + 1) ∧
    (stepOnce cfgModeA
        { initSt with iambicState := IambicState.dahditInit } 0).2.2 = 0 :=
  ⟨(C4_pattern_overflow_amended cfgModeA
      { initSt with nextSymbol := Symbol.dah, buffer := 255,
                    bufctr := 8 } 0).2.1 rfl,
   (C4_pattern_overflow_amended cfgModeA
      { initSt with iambicState := IambicState.dahditInit } 0).2.2 rfl⟩

/-- C6 fails on the code: in the single dit run (wpmcnt 4) the key comes up
at tick 5, the inter element gap expires at tick 9 and the FSM enters
STATE_ICG with the gap timer armed to (ICGLEN - IEGLEN - 1) * wpmcnt = 4
ticks, not the claimed (ICGLEN - IEGLEN) * wpmcnt = 8, and the decoded E is
returned at tick 13: the character decode boundary falls 8 ticks = 2 dot
units after key up, not 3 dot units. -/
theorem C6_icg_timer_counterexample :
    ((runTrace cfgModeA initSt (ditBlipInputs.take 4)).1.keyDown = true) ∧
    ((runTrace cfgModeA initSt (ditBlipInputs.take 5)).1.keyDown = false) ∧
    ((runTrace cfgModeA initSt (ditBlipInputs.take 9)).1.iambicState
        = IambicState.icg) ∧
    ((runTrace cfgModeA initSt (ditBlipInputs.take 9)).1.timer
        = (ICGLEN - IEGLEN - 1) * cfgModeA.wpmcnt) ∧
    ((ICGLEN - IEGLEN - 1) * cfgModeA.wpmcnt
        ≠ (ICGLEN - IEGLEN) * cfgModeA.wpmcnt) ∧
    ((runTrace cfgModeA initSt ditBlipInputs).2.getD 12 0 = 69) ∧
    (∀ j ∈ [4, 5, 6, 7, 8, 9, 10, 11],
      (runTrace cfgModeA initSt ditBlipInputs).2.getD j 0 = 0) ∧
    (13 - 5 = 2 * cfgModeA.wpmcnt) ∧ (13 - 5 ≠ 3 * cfgModeA.wpmcnt) := by
  decide

/-- C6 amended: when the inter element gap expires with no next symbol
chosen, the FSM enters STATE_ICG with the gap timer set to
(ICGLEN - IEGLEN - 1) * wpmcnt, one dot unit short of the standard gap
minus the unit already elapsed, so the character decode boundary falls
exactly 2 dot units after key up (visible in the single dit run: key up at
tick 5, character returned at tick 13 with wpmcnt 4). -/
theorem C6_icg_timer_amended (cfg : Cfg) (s : IambicSt)
    (h1 : s.iambicState = IambicState.ieg) (h2 : s.timer = 0)
    (h3 : s.pressedKeys = PressedKeys.none) (h4 : s.nextSymbol = Symbol.none)
    (h5 : s.keystate = Keys.none) :
    ((dahditIeg cfg s).1.iambicState = IambicState.icg ∧
     (dahditIeg cfg s).1.timer = (ICGLEN - IEGLEN - 1) * cfg.wpmcnt) ∧
    ((runTrace cfgModeA initSt ditBlipInputs).2.getD 12 0 = 69 ∧
     (runTrace cfgModeA initSt (ditBlipInputs.take 5)).1.keyDown = false ∧
     13 - 5 = 2 * cfgModeA.wpmcnt) := by
  refine ⟨?_, by decide⟩
  simp [dahditIeg, trackKeys, h1, h2, h3, h4, h5]

/-- Witness for C6 amended at a concrete expiring gap state: the FSM enters
STATE_ICG with timer (ICGLEN - IEGLEN - 1) * 4 = 4. -/
theorem C6_icg_timer_amended_witness :
    (dahditIeg cfgModeA
        { initSt with iambicState := IambicState.ieg }).1.iambicState
      = IambicState.icg ∧
    (dahditIeg cfgModeA
        { initSt with iambicState := IambicState.ieg }).1.timer
      = (ICGLEN - IEGLEN - 1) * cfgModeA.wpmcnt :=
  (C6_icg_timer_amended cfgModeA
    { initSt with iambicState := IambicState.ieg }
    rfl rfl rfl rfl rfl).1

end Yack
